import Mathlib

/-!
Verification of the document-to-Markdown normalization pipeline of the
cheatsheet coverage agent.

The embedding models `file_to_md.py` (`convert_to_markdown`,
`_convert_pdf_to_markdown_text`, `_convert_pdf_to_markdown_ocr`) and the
cheatsheet-loading path `_load_cheatsheet` of `main.py`.

Modelling choices:
* Filesystem paths are directory + stem + extension (the extension carries
  its dot), mirroring `pathlib.Path.with_suffix` semantics.
* The filesystem is an association list from paths to file data; a write
  prepends, and lookup takes the first (most recent) entry.
* A PDF file's content is its list of pages; each page has an embedded
  text layer (what `page.extract_text()` returns, `""` for `None`) and
  rendered PNG image bytes (abstracted as a `String`).
* The injected OCR callable may raise: it is modelled as
  `String → Except String String`, the `error` case being a raised Python
  exception with its message.
* Python exception types are modelled by `PyError`: `FileNotFoundError`,
  `ConversionError` (with the data its message interpolates), and an
  exception propagating out of the injected OCR function.
* The nondeterministic completion order of the per-page OCR futures
  (`as_completed`) is an explicit `order : List Nat` parameter, a
  permutation of the page indices; `results` (a Python dict keyed by page
  index) is modelled as a function `Nat → Option String` built by keyed
  insertion in completion order, and `sorted(results)` as filtering
  `List.range page_count` by key membership, which is exactly the sorted
  key list because every inserted key is a valid page index.
-/

namespace CheatSheet

/-- `str.lower()` (ASCII fragment), applied to extensions; defined over the
character list so that it evaluates by kernel reduction. -/
def pyLower (s : String) : String := ⟨s.data.map Char.toLower⟩

/-- `str.strip()` (no-argument form): drop leading and trailing whitespace. -/
def pyStrip (s : String) : String :=
  ⟨((s.data.dropWhile Char.isWhitespace).reverse.dropWhile Char.isWhitespace).reverse⟩

/-- A filesystem path: directory, stem, extension (extension includes the
leading dot, as in `pathlib.Path.suffix`). -/
structure FsPath where
  dir : String
  stem : String
  ext : String
deriving DecidableEq, Repr

/-- `pathlib.Path.with_suffix`: replace the extension, keep dir and stem. -/
def FsPath.withSuffix (p : FsPath) (s : String) : FsPath :=
  { p with ext := s }

/-- One PDF page: its embedded text layer (`page.extract_text() or ""`)
and its rendered 2x-zoom PNG bytes (abstracted). -/
structure PdfPage where
  textLayer : String
  image : String
deriving DecidableEq, Repr

/-- A PDF document is its list of pages. -/
structure PdfDoc where
  pages : List PdfPage
deriving DecidableEq, Repr

/-- Content stored at a path: a text file or a PDF document. -/
inductive FileData where
  | text (s : String)
  | pdf (d : PdfDoc)
deriving DecidableEq, Repr

/-- The filesystem: an association list; earlier entries shadow later ones. -/
structure FS where
  entries : List (FsPath × FileData)
deriving DecidableEq, Repr

def lookupEntries : List (FsPath × FileData) → FsPath → Option FileData
  | [], _ => none
  | (q, d) :: rest, p => if p = q then some d else lookupEntries rest p

/-- `Path.exists` / reading: first matching entry. -/
def FS.lookup (fs : FS) (p : FsPath) : Option FileData :=
  lookupEntries fs.entries p

/-- `Path.write_text`: the new entry shadows any previous one. -/
def FS.write (fs : FS) (p : FsPath) (s : String) : FS :=
  ⟨(p, FileData.text s) :: fs.entries⟩

/-- `Path.read_text(encoding="utf-8", errors="ignore")` on a text file. -/
def FS.readText (fs : FS) (p : FsPath) : String :=
  match fs.lookup p with
  | some (.text s) => s
  | _ => ""

/-- The PDF document stored at a path (only consulted on `.pdf` branches). -/
def FS.readPdf (fs : FS) (p : FsPath) : PdfDoc :=
  match fs.lookup p with
  | some (.pdf d) => d
  | _ => ⟨[]⟩

/-- The data a `ConversionError` message interpolates, one constructor per
`raise ConversionError(...)` site reachable in the modelled code. -/
inductive ErrMsg where
  | textFailedQuality (path : FsPath)
  | unsupportedType (suffix : String)
  | extractedFailedQuality (path : FsPath)
  | noUsableText (path : FsPath)
  | ocrNotProvided
  | noPagesInPdf (path : FsPath)
  | ocrNoContent (path : FsPath)
deriving DecidableEq, Repr

/-- Python exceptions escaping `convert_to_markdown`: `FileNotFoundError`,
`ConversionError`, or an exception raised inside the injected OCR callable
and re-raised by `future.result()`. -/
inductive PyError where
  | fileNotFound (path : FsPath)
  | conversionError (msg : ErrMsg)
  | ocrException (e : String)
deriving DecidableEq, Repr

/-- Whether an escaping exception is of the `ConversionError` family,
i.e. catchable by `except ConversionError` in the batch collaborator. -/
def PyError.isConversionError : PyError → Bool
  | .conversionError _ => true
  | _ => false

/-- The injected OCR callable `(image_bytes) -> str`; `error` is a raised
exception. -/
def OcrFunc : Type := String → Except String String

/-- `"Page " + str(n)`. -/
def pageHeader (n : Nat) : String := "Page " ++ toString n

/-- Keyed insertion into the `results` dict. -/
def upd (d : Nat → Option String) (i : Nat) (v : String) : Nat → Option String :=
  fun k => if k = i then some v else d k

/-- The `as_completed` loop of `_convert_pdf_to_markdown_ocr`: walk the
futures in completion `order`; `future.result()` re-raises the first OCR
exception encountered; otherwise the stripped text is inserted into
`results` when non-empty. -/
def collectOcr (pages : List PdfPage) (f : OcrFunc) :
    List Nat → (Nat → Option String) → Except String (Nat → Option String)
  | [], d => .ok d
  | i :: rest, d =>
    match pages.get? i with
    | none => collectOcr pages f rest d
    | some pg =>
      match f pg.image with
      | .error e => .error e
      | .ok t =>
        if (pyStrip t).isEmpty then collectOcr pages f rest d
        else collectOcr pages f rest (upd d i (pyStrip t))

/-- `for idx in sorted(results): ...` — the merge loop body, appending
`Page idx+1`, a blank line, the stored text and a blank line per key, keys
in ascending order. -/
def ocrLines (results : Nat → Option String) (n : Nat) : List String :=
  (((List.range n).filter (fun i => (results i).isSome)).map
    (fun i => [pageHeader (i + 1), "", (results i).getD "", ""])).flatten

/-- `_convert_pdf_to_markdown_ocr`, with the futures' completion order as
the explicit parameter `order`. -/
def convert_pdf_to_markdown_ocr (doc : PdfDoc) (pdf_path : FsPath)
    (ocr_func : Option OcrFunc) (order : List Nat) : Except PyError String :=
  match ocr_func with
  | none => .error (.conversionError .ocrNotProvided)
  | some f =>
    if doc.pages.length = 0 then .error (.conversionError (.noPagesInPdf pdf_path))
    else
      match collectOcr doc.pages f order (fun _ => none) with
      | .error e => .error (.ocrException e)
      | .ok results =>
        if (List.range doc.pages.length).all (fun i => (results i).isNone) then
          .error (.conversionError (.ocrNoContent pdf_path))
        else .ok (String.intercalate "\n" (ocrLines results doc.pages.length))

/-- The merge loop of `_convert_pdf_to_markdown_text`: pages enumerated
from `idx`, whitespace-only pages skipped, four lines appended per kept
page. -/
def textLines : List String → Nat → List String
  | [], _ => []
  | t :: ts, idx =>
    (if (pyStrip t).isEmpty then [] else [pageHeader idx, "", pyStrip t, ""]) ++
      textLines ts (idx + 1)

/-- `_convert_pdf_to_markdown_text` (pypdf extraction abstracted into the
pages' stored text layers). -/
def convert_pdf_to_markdown_text (doc : PdfDoc) (pdf_path : FsPath) :
    Except PyError String :=
  let lines := textLines (doc.pages.map (·.textLayer)) 1
  if lines.isEmpty then .error (.conversionError (.noUsableText pdf_path))
  else .ok (String.intercalate "\n" lines)

/-- `convert_to_markdown`. Returns the filesystem after the call together
with the returned path or escaped exception; every `raise` happens before
the single `write_text` of its branch, so an error result carries the
filesystem state at raise time. -/
def convert_to_markdown (fs : FS) (path : FsPath)
    (quality_checker : Option (String → Bool))
    (ocr_func : Option OcrFunc) (use_ocr : Bool)
    (ocr_order : List Nat) : FS × Except PyError FsPath :=
  match fs.lookup path with
  | none => (fs, .error (.fileNotFound path))
  | some _ =>
    let suffix := pyLower path.ext
    if suffix = ".md" then (fs, .ok path)
    else if suffix = ".txt" then
      let md_path := path.withSuffix ".md"
      match fs.lookup md_path with
      | some _ => (fs, .ok md_path)
      | none =>
        let markdown := pyStrip (fs.readText path) ++ "\n"
        match quality_checker with
        | some qc =>
          if qc markdown then (fs.write md_path markdown, .ok md_path)
          else (fs, .error (.conversionError (.textFailedQuality path)))
        | none => (fs.write md_path markdown, .ok md_path)
    else
      let md_path := path.withSuffix ".md"
      match fs.lookup md_path with
      | some _ => (fs, .ok md_path)
      | none =>
        if suffix = ".pdf" then
          match (if use_ocr then
                   convert_pdf_to_markdown_ocr (fs.readPdf path) path ocr_func ocr_order
                 else
                   convert_pdf_to_markdown_text (fs.readPdf path) path) with
          | .error e => (fs, .error e)
          | .ok markdown_text =>
            match quality_checker with
            | some qc =>
              if qc markdown_text then (fs.write md_path markdown_text, .ok md_path)
              else (fs, .error (.conversionError (.extractedFailedQuality path)))
            | none => (fs.write md_path markdown_text, .ok md_path)
        else (fs, .error (.conversionError (.unsupportedType suffix)))

/-- Outcomes of `_load_cheatsheet` other than returning text: a
`SystemExit` from the caught `ConversionError`, an exception the handler
does not catch, or the missing-cheatsheet `SystemExit`. -/
inductive CheatErr where
  | systemExitConvert (e : ErrMsg)
  | uncaught (e : PyError)
  | noCheatsheet (dir : String)
deriving DecidableEq, Repr

/-- `_load_cheatsheet` from `main.py`: prefer `cheatsheet.md`, else convert
`cheatsheet.pdf` (quality checker `None`, OCR function injected only when
`use_ocr`), else exit. Returns the cheatsheet text and resulting
filesystem. -/
def load_cheatsheet (fs : FS) (course_dir : String) (use_ocr : Bool)
    (llm_ocr : OcrFunc) (order : List Nat) : Except CheatErr (String × FS) :=
  let md_path : FsPath := ⟨course_dir, "cheatsheet", ".md"⟩
  let pdf_path : FsPath := ⟨course_dir, "cheatsheet", ".pdf"⟩
  match fs.lookup md_path with
  | some _ => .ok (fs.readText md_path, fs)
  | none =>
    match fs.lookup pdf_path with
    | some _ =>
      match convert_to_markdown fs pdf_path none
          (if use_ocr then some llm_ocr else none) use_ocr order with
      | (_, .error (.conversionError m)) => .error (.systemExitConvert m)
      | (_, .error e) => .error (.uncaught e)
      | (fs2, .ok p) => .ok (fs2.readText p, fs2)
    | none => .error (.noCheatsheet course_dir)

/-! ### Helper lemmas -/

theorem lookup_write_self (fs : FS) (p : FsPath) (s : String) :
    (fs.write p s).lookup p = some (.text s) := by
  simp [FS.write, FS.lookup, lookupEntries]

theorem lookup_write_ne (fs : FS) (p q : FsPath) (s : String) (h : q ≠ p) :
    (fs.write p s).lookup q = fs.lookup q := by
  simp [FS.write, FS.lookup, lookupEntries, h]

theorem readText_of_lookup (fs : FS) (p : FsPath) (s : String)
    (h : fs.lookup p = some (.text s)) : fs.readText p = s := by
  simp [FS.readText, h]

theorem readPdf_of_lookup (fs : FS) (p : FsPath) (d : PdfDoc)
    (h : fs.lookup p = some (.pdf d)) : fs.readPdf p = d := by
  simp [FS.readPdf, h]

theorem ext_ne_of_pyLower_txt (path : FsPath) (h : pyLower path.ext = ".txt") :
    path.ext ≠ ".md" := by
  intro he
  rw [he] at h
  exact absurd h (by decide)

theorem ext_ne_of_pyLower_pdf (path : FsPath) (h : pyLower path.ext = ".pdf") :
    path.ext ≠ ".md" := by
  intro he
  rw [he] at h
  exact absurd h (by decide)

theorem ext_md_of_path_eq_sibling (path : FsPath)
    (h : path = path.withSuffix ".md") : pyLower path.ext = ".md" := by
  have : path.ext = ".md" := congrArg FsPath.ext h
  rw [this]
  decide

/-- Shape of every successful `convert_to_markdown` call: the source is
still present afterwards, a file exists at the returned path, and the
returned path is the source itself (`.md` branch) or the derived sibling. -/
theorem convert_ok_shape (fs : FS) (path : FsPath)
    (qc : Option (String → Bool)) (ocr : Option OcrFunc) (u : Bool)
    (ord : List Nat) (fs2 : FS) (p : FsPath)
    (h : convert_to_markdown fs path qc ocr u ord = (fs2, .ok p)) :
    (∃ dd, fs2.lookup path = some dd) ∧ (∃ dd, fs2.lookup p = some dd) ∧
    ((p = path ∧ fs2 = fs ∧ pyLower path.ext = ".md") ∨
      p = path.withSuffix ".md") := by
  unfold convert_to_markdown at h
  cases hsrc : fs.lookup path with
  | none => rw [hsrc] at h; simp at h
  | some d =>
    rw [hsrc] at h
    simp only at h
    by_cases hmd : pyLower path.ext = ".md"
    · rw [if_pos hmd] at h
      obtain rfl : fs = fs2 := congrArg Prod.fst h
      obtain rfl : path = p := by simpa using congrArg Prod.snd h
      exact ⟨⟨d, hsrc⟩, ⟨d, hsrc⟩, Or.inl ⟨rfl, rfl, hmd⟩⟩
    · have hpd : path ≠ path.withSuffix ".md" := fun he =>
        hmd (ext_md_of_path_eq_sibling path he)
      rw [if_neg hmd] at h
      have hfinish : ∀ fsx : FS,
          (fsx, (Except.ok (path.withSuffix ".md") : Except PyError FsPath)) =
            (fs2, Except.ok p) →
          (∃ dd, fsx.lookup path = some dd) →
          (∃ dd, fsx.lookup (path.withSuffix ".md") = some dd) →
          (∃ dd, fs2.lookup path = some dd) ∧ (∃ dd, fs2.lookup p = some dd) ∧
          ((p = path ∧ fs2 = fs ∧ pyLower path.ext = ".md") ∨
            p = path.withSuffix ".md") := by
        intro fsx hx h1 h2
        obtain rfl : fsx = fs2 := congrArg Prod.fst hx
        obtain rfl : path.withSuffix ".md" = p := by
          simpa using congrArg Prod.snd hx
        exact ⟨h1, h2, Or.inr rfl⟩
      by_cases htxt : pyLower path.ext = ".txt"
      · rw [if_pos htxt] at h
        cases hsib : fs.lookup (path.withSuffix ".md") with
        | some d' =>
          rw [hsib] at h
          exact hfinish fs h ⟨d, hsrc⟩ ⟨d', hsib⟩
        | none =>
          rw [hsib] at h
          have hwr : ∀ m : String,
              (fs.write (path.withSuffix ".md") m,
                (Except.ok (path.withSuffix ".md") :
                  Except PyError FsPath)) = (fs2, Except.ok p) →
              (∃ dd, fs2.lookup path = some dd) ∧
              (∃ dd, fs2.lookup p = some dd) ∧
              ((p = path ∧ fs2 = fs ∧ pyLower path.ext = ".md") ∨
                p = path.withSuffix ".md") := by
            intro m hx
            refine hfinish _ hx ⟨d, ?_⟩ ⟨.text m, lookup_write_self ..⟩
            rw [lookup_write_ne _ _ _ _ hpd]
            exact hsrc
          cases qc with
          | none => exact hwr _ h
          | some g =>
            simp only at h
            by_cases hg : g (pyStrip (fs.readText path) ++ "\n") = true
            · rw [if_pos hg] at h
              exact hwr _ h
            · rw [if_neg hg] at h
              simp at h
      · rw [if_neg htxt] at h
        cases hsib : fs.lookup (path.withSuffix ".md") with
        | some d' =>
          rw [hsib] at h
          exact hfinish fs h ⟨d, hsrc⟩ ⟨d', hsib⟩
        | none =>
          rw [hsib] at h
          by_cases hpdf : pyLower path.ext = ".pdf"
          · rw [if_pos hpdf] at h
            cases hconv : (if u = true then
                convert_pdf_to_markdown_ocr (fs.readPdf path) path ocr ord
              else convert_pdf_to_markdown_text (fs.readPdf path) path) with
            | error e => rw [hconv] at h; simp at h
            | ok t =>
              rw [hconv] at h
              have hwr : ∀ m : String,
                  (fs.write (path.withSuffix ".md") m,
                    (Except.ok (path.withSuffix ".md") :
                      Except PyError FsPath)) = (fs2, Except.ok p) →
                  (∃ dd, fs2.lookup path = some dd) ∧
                  (∃ dd, fs2.lookup p = some dd) ∧
                  ((p = path ∧ fs2 = fs ∧ pyLower path.ext = ".md") ∨
                    p = path.withSuffix ".md") := by
                intro m hx
                refine hfinish _ hx ⟨d, ?_⟩ ⟨.text m, lookup_write_self ..⟩
                rw [lookup_write_ne _ _ _ _ hpd]
                exact hsrc
              cases qc with
              | none => exact hwr _ h
              | some g =>
                simp only at h
                by_cases hg : g t = true
                · rw [if_pos hg] at h
                  exact hwr _ h
                · rw [if_neg hg] at h
                  simp at h
          · rw [if_neg hpdf] at h
            simp at h

/-- Unconditional sibling reuse for non-`.md` sources: when the derived
sibling exists, `convert_to_markdown` returns it with the filesystem
untouched, whatever the gate, OCR function, OCR flag and completion
order. -/
theorem convert_reuse_sibling (fs : FS) (path : FsPath) (d d' : FileData)
    (qc : Option (String → Bool)) (ocr : Option OcrFunc) (u : Bool)
    (ord : List Nat)
    (hsrc : fs.lookup path = some d)
    (hmd : pyLower path.ext ≠ ".md")
    (hsib : fs.lookup (path.withSuffix ".md") = some d') :
    convert_to_markdown fs path qc ocr u ord =
      (fs, .ok (path.withSuffix ".md")) := by
  unfold convert_to_markdown
  rw [hsrc]
  simp only
  rw [if_neg hmd]
  by_cases htxt : pyLower path.ext = ".txt"
  · rw [if_pos htxt, hsib]
  · rw [if_neg htxt, hsib]

/-! ### Claims -/

/-- **C7** (plain-text normalization): for every `.txt` source with no
existing derived sibling whose normalized text passes the quality gate (or
with no gate supplied), `convert_to_markdown` writes the sibling `.md`
file with content `pyStrip source ++ "\n"` — the source stripped of
leading/trailing whitespace plus exactly one trailing newline — and
returns that sibling path. -/
theorem c7_txt_normalization
    (fs : FS) (path : FsPath) (s : String)
    (qc : Option (String → Bool)) (ocr : Option OcrFunc) (u : Bool) (ord : List Nat)
    (hsrc : fs.lookup path = some (.text s))
    (hext : pyLower path.ext = ".txt")
    (hsib : fs.lookup (path.withSuffix ".md") = none)
    (hgate : ∀ g, qc = some g → g (pyStrip s ++ "\n") = true) :
    convert_to_markdown fs path qc ocr u ord =
      (fs.write (path.withSuffix ".md") (pyStrip s ++ "\n"),
        .ok (path.withSuffix ".md"))
    ∧ (fs.write (path.withSuffix ".md") (pyStrip s ++ "\n")).lookup
        (path.withSuffix ".md") = some (.text (pyStrip s ++ "\n")) := by
  constructor
  · unfold convert_to_markdown
    rw [hsrc, readText_of_lookup fs path s hsrc]
    simp only [hext, if_true, hsib]
    cases qc with
    | none => rfl
    | some g => simp [hgate g rfl]
  · exact lookup_write_self ..

/-- **C8** (MissingOcrFunction): for every existing `.pdf` source with no
derived sibling, calling `convert_to_markdown` with `use_ocr = true` and
no OCR function fails with the missing-OCR-function `ConversionError`,
independently of the stored document content and of the completion order
(no page is consulted), and leaves the filesystem unchanged. -/
theorem c8_missing_ocr_function
    (fs : FS) (path : FsPath) (d : FileData)
    (qc : Option (String → Bool)) (ord : List Nat)
    (hsrc : fs.lookup path = some d)
    (hext : pyLower path.ext = ".pdf")
    (hsib : fs.lookup (path.withSuffix ".md") = none) :
    convert_to_markdown fs path qc none true ord =
      (fs, .error (.conversionError .ocrNotProvided)) := by
  unfold convert_to_markdown
  rw [hsrc]
  simp only [hext, hsib, if_true]
  rfl

/-- Witness for C7: a `.txt` source `"  hi  "` with no sibling and no gate
is normalized to `"hi\n"` in the derived sibling. -/
theorem c7_txt_normalization_witness :
    convert_to_markdown ⟨[(⟨"c", "a", ".txt"⟩, .text "  hi  ")]⟩
        ⟨"c", "a", ".txt"⟩ none none false [] =
      ((FS.mk [(⟨"c", "a", ".txt"⟩, .text "  hi  ")]).write
        ⟨"c", "a", ".md"⟩ "hi\n", .ok ⟨"c", "a", ".md"⟩) := by
  have h := (c7_txt_normalization ⟨[(⟨"c", "a", ".txt"⟩, .text "  hi  ")]⟩
    ⟨"c", "a", ".txt"⟩ "  hi  " none none false [] rfl rfl rfl
    (fun g hg => by cases hg)).1
  exact h

/-- Witness for C8: an existing one-page PDF with no sibling, OCR mode and
no OCR function fails with the missing-OCR-function error. -/
theorem c8_missing_ocr_function_witness :
    convert_to_markdown ⟨[(⟨"c", "b", ".pdf"⟩, .pdf ⟨[⟨"x", "img"⟩]⟩)]⟩
        ⟨"c", "b", ".pdf"⟩ none none true [0] =
      (⟨[(⟨"c", "b", ".pdf"⟩, .pdf ⟨[⟨"x", "img"⟩]⟩)]⟩,
        .error (.conversionError .ocrNotProvided)) :=
  c8_missing_ocr_function ⟨[(⟨"c", "b", ".pdf"⟩, .pdf ⟨[⟨"x", "img"⟩]⟩)]⟩
    ⟨"c", "b", ".pdf"⟩ (.pdf ⟨[⟨"x", "img"⟩]⟩) none [0] rfl rfl rfl

/-- **C6** (standard-reuse idempotence): for every `.txt` or `.pdf` source
whose derived sibling exists, `convert_to_markdown` returns the sibling
path with the filesystem untouched, for every gate, OCR function, OCR mode
and completion order (so neither extraction nor the gate can influence the
result); consequently, if a call succeeds, an immediately repeated call
with any arguments returns the same path and leaves the filesystem — in
particular the sibling's content — unmodified. -/
theorem c6_standard_reuse_idempotence (fs : FS) (path : FsPath)
    (hext : pyLower path.ext = ".txt" ∨ pyLower path.ext = ".pdf") :
    (∀ d d' qc ocr u ord, fs.lookup path = some d →
      fs.lookup (path.withSuffix ".md") = some d' →
      convert_to_markdown fs path qc ocr u ord =
        (fs, .ok (path.withSuffix ".md"))) ∧
    (∀ qc ocr u ord qc' ocr' u' ord' fs2 p,
      convert_to_markdown fs path qc ocr u ord = (fs2, .ok p) →
      convert_to_markdown fs2 path qc' ocr' u' ord' = (fs2, .ok p)) := by
  have hmd : pyLower path.ext ≠ ".md" := by
    rcases hext with h | h <;> rw [h] <;> decide
  constructor
  · intro d d' qc ocr u ord hsrc hsib
    exact convert_reuse_sibling fs path d d' qc ocr u ord hsrc hmd hsib
  · intro qc ocr u ord qc' ocr' u' ord' fs2 p h
    obtain ⟨⟨d1, h1⟩, ⟨d2, h2⟩, h3⟩ := convert_ok_shape fs path qc ocr u ord fs2 p h
    rcases h3 with ⟨_, _, hcontra⟩ | rfl
    · exact absurd hcontra hmd
    · exact convert_reuse_sibling fs2 path d1 d2 qc' ocr' u' ord' h1 hmd h2

/-- Witness for C6: after a first conversion of a `.txt` source creates
the sibling, a second call (different gate and OCR arguments) returns the
same path and the same filesystem. -/
theorem c6_standard_reuse_idempotence_witness :
    convert_to_markdown
        ((FS.mk [(⟨"c", "a", ".txt"⟩, .text "hi")]).write ⟨"c", "a", ".md"⟩ "hi\n")
        ⟨"c", "a", ".txt"⟩ (some (fun _ => false)) none true [] =
      (((FS.mk [(⟨"c", "a", ".txt"⟩, .text "hi")]).write ⟨"c", "a", ".md"⟩ "hi\n"),
        .ok ⟨"c", "a", ".md"⟩) :=
  (c6_standard_reuse_idempotence (FS.mk [(⟨"c", "a", ".txt"⟩, .text "hi")])
      ⟨"c", "a", ".txt"⟩ (Or.inl rfl)).2
    none none false [] (some (fun _ => false)) none true []
    ((FS.mk [(⟨"c", "a", ".txt"⟩, .text "hi")]).write ⟨"c", "a", ".md"⟩ "hi\n")
    ⟨"c", "a", ".md"⟩ rfl

/-- **C9** (OCR-function noninterference in text-layer mode): with
`use_ocr = false` the entire outcome of `convert_to_markdown` — returned
path or exception and resulting filesystem — is identical for every value
of the `ocr_func` argument; behaviourally the injected OCR function is
never consulted. -/
theorem c9_ocr_noninterference (fs : FS) (path : FsPath)
    (qc : Option (String → Bool)) (ocr1 ocr2 : Option OcrFunc)
    (ord : List Nat) :
    convert_to_markdown fs path qc ocr1 false ord =
      convert_to_markdown fs path qc ocr2 false ord := rfl

/-- **C10** (return-path invariant): every successful call of
`convert_to_markdown` returns a path with the source's directory and stem
whose extension lowercases to `".md"`, a file exists at that path in the
resulting filesystem, and the path is the source itself (`.md` input) or
the derived sibling. -/
theorem c10_return_path_invariant
    (fs : FS) (path : FsPath) (qc : Option (String → Bool))
    (ocr : Option OcrFunc) (u : Bool) (ord : List Nat) (fs2 : FS) (p : FsPath)
    (h : convert_to_markdown fs path qc ocr u ord = (fs2, .ok p)) :
    p.stem = path.stem ∧ p.dir = path.dir ∧ pyLower p.ext = ".md" ∧
    fs2.lookup p ≠ none ∧
    ((p = path ∧ pyLower path.ext = ".md") ∨ p = path.withSuffix ".md") := by
  obtain ⟨_, h2, h3⟩ := convert_ok_shape fs path qc ocr u ord fs2 p h
  obtain ⟨dd, hd⟩ := h2
  rcases h3 with ⟨rfl, rfl, hmd⟩ | rfl
  · exact ⟨rfl, rfl, hmd, by rw [hd]; simp, Or.inl ⟨rfl, hmd⟩⟩
  · exact ⟨rfl, rfl, rfl, by rw [hd]; simp, Or.inr rfl⟩

/-- Witness for C10: converting a `.md` source returns it unchanged, with
the invariant instantiated there. -/
theorem c10_return_path_invariant_witness :
    (FsPath.mk "c" "n" ".md").stem = (FsPath.mk "c" "n" ".md").stem ∧
    (FsPath.mk "c" "n" ".md").dir = (FsPath.mk "c" "n" ".md").dir ∧
    pyLower (FsPath.mk "c" "n" ".md").ext = ".md" ∧
    (FS.mk [(⟨"c", "n", ".md"⟩, .text "x")]).lookup ⟨"c", "n", ".md"⟩ ≠ none ∧
    ((FsPath.mk "c" "n" ".md" = FsPath.mk "c" "n" ".md" ∧
        pyLower (FsPath.mk "c" "n" ".md").ext = ".md") ∨
      FsPath.mk "c" "n" ".md" = (FsPath.mk "c" "n" ".md").withSuffix ".md") :=
  c10_return_path_invariant (FS.mk [(⟨"c", "n", ".md"⟩, .text "x")])
    ⟨"c", "n", ".md"⟩ none none false []
    (FS.mk [(⟨"c", "n", ".md"⟩, .text "x")]) ⟨"c", "n", ".md"⟩ rfl

/-- **C5** (quality-gate atomicity): whenever a conversion reaches the
quality gate with a supplied gate — after plain-text normalization or
after PDF extraction — and the gate rejects the produced text, the call
fails with the quality-check `ConversionError` naming the source path and
returns the filesystem unchanged (no artifact is written). -/
theorem c5_quality_gate_atomicity (fs : FS) (path : FsPath)
    (g : String → Bool) (ocr : Option OcrFunc) (u : Bool) (ord : List Nat) :
    (∀ s, fs.lookup path = some (.text s) →
      pyLower path.ext = ".txt" →
      fs.lookup (path.withSuffix ".md") = none →
      g (pyStrip s ++ "\n") = false →
      convert_to_markdown fs path (some g) ocr u ord =
        (fs, .error (.conversionError (.textFailedQuality path)))) ∧
    (∀ d t, fs.lookup path = some d →
      pyLower path.ext = ".pdf" →
      fs.lookup (path.withSuffix ".md") = none →
      (if u = true then convert_pdf_to_markdown_ocr (fs.readPdf path) path ocr ord
        else convert_pdf_to_markdown_text (fs.readPdf path) path) = .ok t →
      g t = false →
      convert_to_markdown fs path (some g) ocr u ord =
        (fs, .error (.conversionError (.extractedFailedQuality path)))) := by
  constructor
  · intro s hsrc hext hsib hg
    unfold convert_to_markdown
    rw [hsrc, readText_of_lookup fs path s hsrc]
    simp only [hext, if_true, hsib]
    simp [hg]
  · intro d t hsrc hext hsib hconv hg
    unfold convert_to_markdown
    rw [hsrc]
    simp only [hext, hsib, if_true]
    rw [hconv]
    simp [hg]

/-- One step of the `as_completed` loop when no exception occurs at this
future: what processing page `i` does to the `results` dict. -/
def ocrStep (pages : List PdfPage) (f : OcrFunc)
    (d : Nat → Option String) (i : Nat) : Nat → Option String :=
  match pages.get? i with
  | none => d
  | some pg =>
    match f pg.image with
    | .error _ => d
    | .ok t => if (pyStrip t).isEmpty then d else upd d i (pyStrip t)

theorem upd_comm (d : Nat → Option String) (i j : Nat) (v w : String)
    (hij : i ≠ j) : upd (upd d i v) j w = upd (upd d j w) i v := by
  funext k
  simp only [upd]
  by_cases h1 : k = j <;> by_cases h2 : k = i <;> simp_all

theorem ocrStep_none (pages : List PdfPage) (f : OcrFunc)
    (d : Nat → Option String) (i : Nat) (h : pages.get? i = none) :
    ocrStep pages f d i = d := by
  unfold ocrStep
  rw [h]

theorem ocrStep_err (pages : List PdfPage) (f : OcrFunc)
    (d : Nat → Option String) (i : Nat) (pg : PdfPage) (e : String)
    (h : pages.get? i = some pg) (hf : f pg.image = .error e) :
    ocrStep pages f d i = d := by
  unfold ocrStep
  rw [h]
  simp only [hf]

theorem ocrStep_ok_empty (pages : List PdfPage) (f : OcrFunc)
    (d : Nat → Option String) (i : Nat) (pg : PdfPage) (t : String)
    (h : pages.get? i = some pg) (hf : f pg.image = .ok t)
    (hemp : (pyStrip t).isEmpty = true) :
    ocrStep pages f d i = d := by
  unfold ocrStep
  rw [h]
  simp only [hf, hemp, if_true]

theorem ocrStep_ok_upd (pages : List PdfPage) (f : OcrFunc)
    (d : Nat → Option String) (i : Nat) (pg : PdfPage) (t : String)
    (h : pages.get? i = some pg) (hf : f pg.image = .ok t)
    (hemp : (pyStrip t).isEmpty = false) :
    ocrStep pages f d i = upd d i (pyStrip t) := by
  unfold ocrStep
  rw [h]
  simp only [hf, hemp, Bool.false_eq_true, if_false]

/-- Each step either leaves the dict unchanged or performs a keyed
insertion whose key and value do not depend on the dict. -/
theorem ocrStep_cases (pages : List PdfPage) (f : OcrFunc) (i : Nat) :
    (∀ d, ocrStep pages f d i = d) ∨
    (∃ v, ∀ d, ocrStep pages f d i = upd d i v) := by
  cases hg : pages.get? i with
  | none => exact Or.inl fun d => ocrStep_none pages f d i hg
  | some pg =>
    cases hf : f pg.image with
    | error e => exact Or.inl fun d => ocrStep_err pages f d i pg e hg hf
    | ok t =>
      cases hemp : (pyStrip t).isEmpty with
      | true => exact Or.inl fun d => ocrStep_ok_empty pages f d i pg t hg hf hemp
      | false =>
        exact Or.inr ⟨pyStrip t, fun d => ocrStep_ok_upd pages f d i pg t hg hf hemp⟩

theorem ocrStep_comm (pages : List PdfPage) (f : OcrFunc)
    (d : Nat → Option String) (i j : Nat) :
    ocrStep pages f (ocrStep pages f d i) j =
      ocrStep pages f (ocrStep pages f d j) i := by
  by_cases hij : i = j
  · subst hij; rfl
  · rcases ocrStep_cases pages f i with hi | ⟨v, hi⟩ <;>
      rcases ocrStep_cases pages f j with hj | ⟨w, hj⟩
    · simp only [hi, hj]
    · simp only [hi, hj]
    · simp only [hi, hj]
    · simp only [hi, hj]
      exact upd_comm d i j v w hij

/-- The final dict does not depend on the completion order. -/
theorem foldl_ocrStep_perm (pages : List PdfPage) (f : OcrFunc)
    {o1 o2 : List Nat} (h : o1.Perm o2) :
    ∀ d, o1.foldl (ocrStep pages f) d = o2.foldl (ocrStep pages f) d := by
  induction h with
  | nil => intro d; rfl
  | cons x _ ih => intro d; simp only [List.foldl_cons]; exact ih _
  | swap x y l =>
    intro d
    simp only [List.foldl_cons]
    rw [ocrStep_comm]
  | trans _ _ ih1 ih2 => intro d; rw [ih1, ih2]

theorem collectOcr_cons_none (pages : List PdfPage) (f : OcrFunc)
    (j : Nat) (rest : List Nat) (d : Nat → Option String)
    (h : pages.get? j = none) :
    collectOcr pages f (j :: rest) d = collectOcr pages f rest d := by
  simp only [collectOcr]
  rw [h]

theorem collectOcr_cons_err (pages : List PdfPage) (f : OcrFunc)
    (j : Nat) (rest : List Nat) (d : Nat → Option String)
    (pg : PdfPage) (e : String)
    (h : pages.get? j = some pg) (hf : f pg.image = .error e) :
    collectOcr pages f (j :: rest) d = .error e := by
  simp only [collectOcr]
  rw [h]
  simp only [hf]

theorem collectOcr_cons_ok_empty (pages : List PdfPage) (f : OcrFunc)
    (j : Nat) (rest : List Nat) (d : Nat → Option String)
    (pg : PdfPage) (t : String)
    (h : pages.get? j = some pg) (hf : f pg.image = .ok t)
    (hemp : (pyStrip t).isEmpty = true) :
    collectOcr pages f (j :: rest) d = collectOcr pages f rest d := by
  simp only [collectOcr]
  rw [h]
  simp only [hf, hemp, if_true]

theorem collectOcr_cons_ok_upd (pages : List PdfPage) (f : OcrFunc)
    (j : Nat) (rest : List Nat) (d : Nat → Option String)
    (pg : PdfPage) (t : String)
    (h : pages.get? j = some pg) (hf : f pg.image = .ok t)
    (hemp : (pyStrip t).isEmpty = false) :
    collectOcr pages f (j :: rest) d =
      collectOcr pages f rest (upd d j (pyStrip t)) := by
  simp only [collectOcr]
  rw [h]
  simp only [hf, hemp, Bool.false_eq_true, if_false]

/-- When no page's OCR raises, the collection loop succeeds and computes
the fold of the steps over the completion order. -/
theorem collectOcr_eq_foldl (pages : List PdfPage) (f : OcrFunc) :
    ∀ (o : List Nat),
      (∀ i ∈ o, ∀ pg, pages.get? i = some pg → ∀ e, f pg.image ≠ .error e) →
      ∀ d, collectOcr pages f o d = .ok (o.foldl (ocrStep pages f) d) := by
  intro o
  induction o with
  | nil => intro _ d; rfl
  | cons j rest ih =>
    intro h d
    have hj : ∀ pg, pages.get? j = some pg → ∀ e, f pg.image ≠ .error e :=
      h j (List.mem_cons_self j rest)
    have ht : ∀ i ∈ rest, ∀ pg, pages.get? i = some pg →
        ∀ e, f pg.image ≠ .error e :=
      fun i hi => h i (List.mem_cons_of_mem j hi)
    rw [List.foldl_cons]
    cases hg : pages.get? j with
    | none =>
      rw [collectOcr_cons_none pages f j rest d hg,
        ocrStep_none pages f d j hg]
      exact ih ht d
    | some pg =>
      cases hf : f pg.image with
      | error e => exact absurd hf (hj pg hg e)
      | ok t =>
        cases hemp : (pyStrip t).isEmpty with
        | true =>
          rw [collectOcr_cons_ok_empty pages f j rest d pg t hg hf hemp,
            ocrStep_ok_empty pages f d j pg t hg hf hemp]
          exact ih ht d
        | false =>
          rw [collectOcr_cons_ok_upd pages f j rest d pg t hg hf hemp,
            ocrStep_ok_upd pages f d j pg t hg hf hemp]
          exact ih ht _

/-- When some page's OCR raises, the collection loop raises. -/
theorem collectOcr_error (pages : List PdfPage) (f : OcrFunc) :
    ∀ (o : List Nat) (d : Nat → Option String),
      (∃ i ∈ o, ∃ pg, pages.get? i = some pg ∧ ∃ e, f pg.image = .error e) →
      ∃ e, collectOcr pages f o d = .error e := by
  intro o
  induction o with
  | nil => intro d h; simp at h
  | cons j rest ih =>
    intro d h
    obtain ⟨i, hi, pg, hpg, e, he⟩ := h
    rcases List.mem_cons.mp hi with rfl | hmem
    · exact ⟨e, collectOcr_cons_err pages f i rest d pg e hpg he⟩
    · cases hgj : pages.get? j with
      | none =>
        rw [collectOcr_cons_none pages f j rest d hgj]
        exact ih d ⟨i, hmem, pg, hpg, e, he⟩
      | some pgj =>
        cases hfj : f pgj.image with
        | error e2 => exact ⟨e2, collectOcr_cons_err pages f j rest d pgj e2 hgj hfj⟩
        | ok t =>
          cases hemp : (pyStrip t).isEmpty with
          | true =>
            rw [collectOcr_cons_ok_empty pages f j rest d pgj t hgj hfj hemp]
            exact ih d ⟨i, hmem, pg, hpg, e, he⟩
          | false =>
            rw [collectOcr_cons_ok_upd pages f j rest d pgj t hgj hfj hemp]
            exact ih _ ⟨i, hmem, pg, hpg, e, he⟩

/-- `_convert_pdf_to_markdown_ocr` with the OCR function present, as an
equation usable for rewriting. -/
theorem convert_ocr_some (doc : PdfDoc) (path : FsPath) (f : OcrFunc)
    (order : List Nat) :
    convert_pdf_to_markdown_ocr doc path (some f) order =
      (if doc.pages.length = 0 then
        .error (.conversionError (.noPagesInPdf path))
      else
        match collectOcr doc.pages f order (fun _ => none) with
        | .error e => .error (.ocrException e)
        | .ok results =>
          if (List.range doc.pages.length).all (fun i => (results i).isNone) then
            .error (.conversionError (.ocrNoContent path))
          else .ok (String.intercalate "\n" (ocrLines results doc.pages.length))) := rfl

/-- **C3** (page-order determinism under OCR): for an OCR-mode conversion
of a PDF, any two completion orders of the per-page futures (permutations
of the page indices) yield the same merged Markdown whenever one yields a
merged Markdown at all; and the 1-based page numbers emitted by the merge
(`Page N` headers, one per page index stored in the final dict, iterated
as sorted keys) are strictly ascending. -/
theorem c3_page_order_determinism (doc : PdfDoc) (path : FsPath)
    (f : OcrFunc) (o1 o2 : List Nat)
    (h1 : o1.Perm (List.range doc.pages.length))
    (h2 : o2.Perm (List.range doc.pages.length)) :
    (∀ m, convert_pdf_to_markdown_ocr doc path (some f) o1 = .ok m ↔
      convert_pdf_to_markdown_ocr doc path (some f) o2 = .ok m) ∧
    (∀ d, collectOcr doc.pages f o1 (fun _ => none) = .ok d →
      List.Sorted (· < ·)
        (((List.range doc.pages.length).filter
          (fun i => (d i).isSome)).map (· + 1))) := by
  have hperm : o1.Perm o2 := h1.trans h2.symm
  constructor
  · by_cases herr : ∀ i ∈ o1, ∀ pg, doc.pages.get? i = some pg →
        ∀ e, f pg.image ≠ .error e
    · have herr2 : ∀ i ∈ o2, ∀ pg, doc.pages.get? i = some pg →
          ∀ e, f pg.image ≠ .error e :=
        fun i hi => herr i (hperm.mem_iff.mpr hi)
      have e1 := collectOcr_eq_foldl doc.pages f o1 herr (fun _ => none)
      have e2 := collectOcr_eq_foldl doc.pages f o2 herr2 (fun _ => none)
      intro m
      rw [convert_ocr_some, convert_ocr_some, e1, e2,
        foldl_ocrStep_perm doc.pages f hperm]
    · push_neg at herr
      obtain ⟨i, hi, pg, hpg, e, he⟩ := herr
      obtain ⟨e1, he1⟩ := collectOcr_error doc.pages f o1 (fun _ => none)
        ⟨i, hi, pg, hpg, e, he⟩
      obtain ⟨e2, he2⟩ := collectOcr_error doc.pages f o2 (fun _ => none)
        ⟨i, hperm.mem_iff.mp hi, pg, hpg, e, he⟩
      intro m
      rw [convert_ocr_some, convert_ocr_some, he1, he2]
      by_cases hn : doc.pages.length = 0
      · simp [hn]
      · simp [hn]
  · intro d _
    have hp : List.Pairwise (· < ·) (List.range doc.pages.length) :=
      List.pairwise_lt_range doc.pages.length
    have hf := hp.filter (fun i => (d i).isSome)
    rw [List.Sorted, List.pairwise_map]
    exact hf.imp (fun h => Nat.add_lt_add_right h 1)

/-- Witness for C3: a two-page document OCR'd in the reversed completion
order `[1, 0]` produces the same merged output as the natural order, with
ascending `Page N` sections. -/
theorem c3_page_order_determinism_witness :
    convert_pdf_to_markdown_ocr ⟨[⟨"", "i0"⟩, ⟨"", "i1"⟩]⟩ ⟨"c", "o", ".pdf"⟩
        (some (fun b => .ok ("T" ++ b))) [1, 0] =
      .ok "Page 1\n\nTi0\n\nPage 2\n\nTi1\n" := by
  have h := (c3_page_order_determinism ⟨[⟨"", "i0"⟩, ⟨"", "i1"⟩]⟩
    ⟨"c", "o", ".pdf"⟩ (fun b => .ok ("T" ++ b)) [1, 0] [0, 1]
    (by decide) (by decide)).1 "Page 1\n\nTi0\n\nPage 2\n\nTi1\n"
  exact h.mpr rfl

/-- What the final `results` dict holds at key `i` after all futures
complete without raising: the stripped OCR output of page `i` when that
page exists and its stripped output is non-empty, `none` otherwise. -/
def ocrPageText (pages : List PdfPage) (f : OcrFunc) (i : Nat) : Option String :=
  match pages.get? i with
  | none => none
  | some pg =>
    match f pg.image with
    | .error _ => none
    | .ok t => if (pyStrip t).isEmpty then none else some (pyStrip t)

/-- The per-page OCR outputs of a document, in page order (a page whose
OCR call would raise is recorded as `""`; the merge theorems below only
use this list under a no-exception hypothesis, and an empty entry is
skipped by the merge either way). -/
def ocrExtracted (pages : List PdfPage) (f : OcrFunc) : List String :=
  pages.map (fun pg => match f pg.image with | .ok t => t | .error _ => "")

theorem ocrPageText_none (pages : List PdfPage) (f : OcrFunc) (i : Nat)
    (h : pages.get? i = none) : ocrPageText pages f i = none := by
  unfold ocrPageText
  rw [h]

theorem ocrPageText_err (pages : List PdfPage) (f : OcrFunc) (i : Nat)
    (pg : PdfPage) (e : String) (h : pages.get? i = some pg)
    (hf : f pg.image = .error e) : ocrPageText pages f i = none := by
  unfold ocrPageText
  rw [h]
  simp only [hf]

theorem ocrPageText_ok (pages : List PdfPage) (f : OcrFunc) (i : Nat)
    (pg : PdfPage) (t : String) (h : pages.get? i = some pg)
    (hf : f pg.image = .ok t) :
    ocrPageText pages f i =
      (if (pyStrip t).isEmpty then none else some (pyStrip t)) := by
  unfold ocrPageText
  rw [h]
  simp only [hf]

/-- A step's effect at its own key is exactly `ocrPageText`. -/
theorem ocrStep_self (pages : List PdfPage) (f : OcrFunc)
    (d : Nat → Option String) (k : Nat) :
    (ocrStep pages f d k) k =
      (match ocrPageText pages f k with | none => d k | some v => some v) := by
  cases hg : pages.get? k with
  | none => rw [ocrStep_none pages f d k hg, ocrPageText_none pages f k hg]
  | some pg =>
    cases hf : f pg.image with
    | error e =>
      rw [ocrStep_err pages f d k pg e hg hf, ocrPageText_err pages f k pg e hg hf]
    | ok t =>
      cases hemp : (pyStrip t).isEmpty with
      | true =>
        rw [ocrStep_ok_empty pages f d k pg t hg hf hemp,
          ocrPageText_ok pages f k pg t hg hf, if_pos hemp]
      | false =>
        rw [ocrStep_ok_upd pages f d k pg t hg hf hemp,
          ocrPageText_ok pages f k pg t hg hf,
          if_neg (by simp [hemp])]
        simp [upd]

/-- A step leaves every other key unchanged. -/
theorem ocrStep_other (pages : List PdfPage) (f : OcrFunc)
    (d : Nat → Option String) (i k : Nat) (h : k ≠ i) :
    (ocrStep pages f d i) k = d k := by
  rcases ocrStep_cases pages f i with hi | ⟨v, hi⟩
  · rw [hi]
  · rw [hi]
    simp [upd, h]

theorem foldl_ocrStep_not_mem (pages : List PdfPage) (f : OcrFunc) :
    ∀ (o : List Nat) (d : Nat → Option String) (k : Nat), k ∉ o →
      (o.foldl (ocrStep pages f) d) k = d k := by
  intro o
  induction o with
  | nil => intro d k _; rfl
  | cons j rest ih =>
    intro d k hk
    rw [List.foldl_cons, ih _ k (fun hr => hk (List.mem_cons_of_mem j hr)),
      ocrStep_other pages f d j k (fun he => hk (he ▸ List.mem_cons_self j rest))]

theorem foldl_ocrStep_mem (pages : List PdfPage) (f : OcrFunc) :
    ∀ (o : List Nat) (d : Nat → Option String) (k : Nat), k ∈ o →
      (o.foldl (ocrStep pages f) d) k =
        (match ocrPageText pages f k with | none => d k | some v => some v) := by
  intro o
  induction o with
  | nil => intro d k hk; cases hk
  | cons j rest ih =>
    intro d k hk
    rw [List.foldl_cons]
    by_cases hr : k ∈ rest
    · rw [ih _ k hr]
      cases hpt : ocrPageText pages f k with
      | some v => simp only
      | none =>
        simp only
        by_cases hkj : k = j
        · subst hkj
          rw [ocrStep_self pages f d k, hpt]
        · exact ocrStep_other pages f d j k hkj
    · have hkj : k = j := by
        rcases List.mem_cons.mp hk with h | h
        · exact h
        · exact absurd h hr
      subst hkj
      rw [foldl_ocrStep_not_mem pages f rest _ k hr, ocrStep_self pages f d k]

/-- Folding the steps over all page indices, from the empty dict, yields
exactly `ocrPageText`. -/
theorem foldl_ocrStep_range (pages : List PdfPage) (f : OcrFunc) :
    (List.range pages.length).foldl (ocrStep pages f) (fun _ => none) =
      ocrPageText pages f := by
  funext k
  by_cases hk : k < pages.length
  · rw [foldl_ocrStep_mem pages f _ _ k (List.mem_range.mpr hk)]
    cases hpt : ocrPageText pages f k <;> simp only
  · rw [foldl_ocrStep_not_mem pages f _ _ k
      (fun hm => hk (List.mem_range.mp hm))]
    rw [ocrPageText_none pages f k (List.get?_eq_none.mpr (Nat.le_of_not_lt hk))]

/-- The OCR merge loop over the final dict emits exactly the text-layer
merge loop applied to the list of per-page OCR outputs (the page indexed
`i` is headed `Page (i + k)` when the enumeration starts at `k`). -/
theorem ocrLines_shift (pages : List PdfPage) (f : OcrFunc) :
    ∀ k : Nat,
      (((List.range pages.length).filter
          (fun i => (ocrPageText pages f i).isSome)).map
        (fun i => [pageHeader (i + k), "", (ocrPageText pages f i).getD "", ""])).flatten
      = textLines (ocrExtracted pages f) k := by
  induction pages with
  | nil => intro k; rfl
  | cons pg rest ih =>
    intro k
    rw [show (pg :: rest).length = rest.length + 1 from rfl,
      List.range_succ_eq_map, List.filter_cons]
    have htail :
        ((((List.range rest.length).map Nat.succ).filter
            (fun i => (ocrPageText (pg :: rest) f i).isSome)).map
          (fun i => [pageHeader (i + k), "",
            (ocrPageText (pg :: rest) f i).getD "", ""])).flatten
        = textLines (ocrExtracted rest f) (k + 1) := by
      rw [List.filter_map, List.map_map]
      have hpred : ((fun i => (ocrPageText (pg :: rest) f i).isSome) ∘ Nat.succ)
          = fun i => (ocrPageText rest f i).isSome := rfl
      rw [hpred]
      rw [List.map_congr_left (g := fun i =>
        [pageHeader (i + (k + 1)), "", (ocrPageText rest f i).getD "", ""])
        (fun i _ => by
          simp only [Function.comp_apply]
          rw [show Nat.succ i + k = i + (k + 1) from by omega]
          rfl)]
      exact ih (k + 1)
    cases hfp : f pg.image with
    | error e =>
      have h0 : ocrPageText (pg :: rest) f 0 = none :=
        ocrPageText_err (pg :: rest) f 0 pg e rfl hfp
      have hhd : ocrExtracted (pg :: rest) f = "" :: ocrExtracted rest f := by
        simp only [ocrExtracted, List.map_cons, hfp]
      rw [h0, hhd]
      simp only [Option.isSome_none, Bool.false_eq_true, if_false, textLines]
      rw [if_pos (by decide), List.nil_append]
      exact htail
    | ok t =>
      have hhd : ocrExtracted (pg :: rest) f = t :: ocrExtracted rest f := by
        simp only [ocrExtracted, List.map_cons, hfp]
      cases hemp : (pyStrip t).isEmpty with
      | true =>
        have h0 : ocrPageText (pg :: rest) f 0 = none := by
          rw [ocrPageText_ok (pg :: rest) f 0 pg t rfl hfp, if_pos hemp]
        rw [h0, hhd]
        simp only [Option.isSome_none, Bool.false_eq_true, if_false, textLines]
        rw [if_pos hemp, List.nil_append]
        exact htail
      | false =>
        have h0 : ocrPageText (pg :: rest) f 0 = some (pyStrip t) := by
          rw [ocrPageText_ok (pg :: rest) f 0 pg t rfl hfp,
            if_neg (by simp [hemp])]
        rw [h0, hhd]
        simp only [Option.isSome_some, if_true, List.map_cons, List.flatten_cons,
          textLines]
        rw [if_neg (by simp [hemp]), htail, h0]
        simp only [Option.getD_some, Nat.zero_add]

/-- The merged OCR line list over the final dict is the text-layer merge
of the per-page OCR outputs (1-based headers). -/
theorem ocrLines_ocrPageText (pages : List PdfPage) (f : OcrFunc) :
    ocrLines (ocrPageText pages f) pages.length =
      textLines (ocrExtracted pages f) 1 := by
  rw [← ocrLines_shift pages f 1]
  rfl

/-- The spec's description of the merged artifact, stated independently of
the code's accumulator loop: one `(N, trimmed text)` pair per page whose
post-trim text is non-empty, `N` the 1-based page number, in page order. -/
def specPageSections (pages : List String) : List (Nat × String) :=
  ((List.enumFrom 1 pages).map (fun p => (p.1, pyStrip p.2))).filter
    (fun p => !p.2.isEmpty)

/-- The spec's merged Markdown: per kept page a `Page N` header, a blank
line, the trimmed text and a blank line, sections concatenated in page
order and joined with newlines. -/
def specMergedMarkdown (pages : List String) : String :=
  String.intercalate "\n"
    (((specPageSections pages).map
      (fun p => [pageHeader p.1, "", p.2, ""])).flatten)

theorem textLines_eq_spec (pages : List String) (k : Nat) :
    textLines pages k =
      ((((List.enumFrom k pages).map (fun p => (p.1, pyStrip p.2))).filter
        (fun p => !p.2.isEmpty)).map
          (fun p => [pageHeader p.1, "", p.2, ""])).flatten := by
  induction pages generalizing k with
  | nil => rfl
  | cons t ts ih =>
    by_cases h : (pyStrip t).isEmpty
    · simp [textLines, h, ih]
    · simp [textLines, h, ih]

theorem textLines_eq_nil_iff (pages : List String) (k : Nat) :
    textLines pages k = [] ↔ ∀ t ∈ pages, (pyStrip t).isEmpty = true := by
  induction pages generalizing k with
  | nil => simp [textLines]
  | cons t ts ih =>
    by_cases h : (pyStrip t).isEmpty
    · simp [textLines, h, ih]
    · simp [textLines, h]

/-- **C4** (merge format and NoExtractableText): for a `.pdf` source with
no derived sibling, in both extraction modes: (i) in text-layer mode, if
every page's text layer strips to empty the call fails with the
no-usable-text `ConversionError` and the filesystem is unchanged (nothing
written); (ii) otherwise the text-layer Markdown is exactly the
spec-shaped merge `specMergedMarkdown` of the page text layers — one
section per page with non-empty post-trim text, `Page N` header, blank
line, trimmed text, blank line, in 1-based page order; (iii) in OCR mode
(OCR function raising no exception, completion order any permutation of
the page indices), if every page's OCR output strips to empty the call
fails with the no-OCR-content `ConversionError` — the OCR-mode
NoExtractableText — and the filesystem is unchanged; (iv) otherwise the
OCR-merged Markdown is exactly the spec-shaped merge of the per-page OCR
outputs. -/
theorem c4_merge_format_no_extractable_text
    (fs : FS) (path : FsPath) (doc : PdfDoc) (f : OcrFunc)
    (qc : Option (String → Bool)) (ord : List Nat)
    (hsrc : fs.lookup path = some (.pdf doc))
    (hext : pyLower path.ext = ".pdf")
    (hsib : fs.lookup (path.withSuffix ".md") = none) :
    ((∀ pg ∈ doc.pages, (pyStrip pg.textLayer).isEmpty = true) →
      convert_to_markdown fs path qc none false ord =
        (fs, .error (.conversionError (.noUsableText path)))) ∧
    (¬(∀ pg ∈ doc.pages, (pyStrip pg.textLayer).isEmpty = true) →
      convert_pdf_to_markdown_text doc path =
        .ok (specMergedMarkdown (doc.pages.map (·.textLayer)))) ∧
    ((∀ pg ∈ doc.pages, ∀ e, f pg.image ≠ .error e) →
      ord.Perm (List.range doc.pages.length) →
      doc.pages ≠ [] →
      (∀ pg ∈ doc.pages, ∀ t, f pg.image = .ok t →
        (pyStrip t).isEmpty = true) →
      convert_to_markdown fs path qc (some f) true ord =
        (fs, .error (.conversionError (.ocrNoContent path)))) ∧
    ((∀ pg ∈ doc.pages, ∀ e, f pg.image ≠ .error e) →
      ord.Perm (List.range doc.pages.length) →
      (∃ pg ∈ doc.pages, ∃ t, f pg.image = .ok t ∧
        (pyStrip t).isEmpty = false) →
      convert_pdf_to_markdown_ocr doc path (some f) ord =
        .ok (specMergedMarkdown (ocrExtracted doc.pages f))) := by
  refine ⟨?_, ?_, ?_, ?_⟩
  · intro hall
    have hl : textLines (doc.pages.map (·.textLayer)) 1 = [] := by
      rw [textLines_eq_nil_iff]
      intro t ht
      obtain ⟨pg, hpg, rfl⟩ := List.mem_map.mp ht
      exact hall pg hpg
    have hconv : convert_pdf_to_markdown_text doc path =
        .error (.conversionError (.noUsableText path)) := by
      unfold convert_pdf_to_markdown_text
      simp [hl]
    unfold convert_to_markdown
    rw [hsrc]
    simp only [hext, hsib, if_true]
    rw [readPdf_of_lookup fs path doc hsrc]
    simp only [Bool.false_eq_true, if_false, hconv]
    rfl
  · intro hne
    have hl : textLines (doc.pages.map (·.textLayer)) 1 ≠ [] := by
      rw [Ne, textLines_eq_nil_iff]
      intro hcon
      exact hne (fun pg hpg => hcon pg.textLayer (List.mem_map.mpr ⟨pg, hpg, rfl⟩))
    unfold convert_pdf_to_markdown_text
    rw [if_neg (by simpa using hl)]
    rw [textLines_eq_spec]
    rfl
  · intro herr hperm hne hempty
    have herrOn : ∀ i ∈ ord, ∀ pgx, doc.pages.get? i = some pgx →
        ∀ e, f pgx.image ≠ .error e :=
      fun i _ pgx hget e => herr pgx (List.get?_mem hget) e
    have hguard : ((List.range doc.pages.length).all
        (fun j => (ocrPageText doc.pages f j).isNone)) = true := by
      rw [List.all_eq_true]
      intro j _
      cases hgj : doc.pages.get? j with
      | none => rw [ocrPageText_none doc.pages f j hgj]; rfl
      | some pgj =>
        cases hfj : f pgj.image with
        | error e => exact absurd hfj (herr pgj (List.get?_mem hgj) e)
        | ok t =>
          rw [ocrPageText_ok doc.pages f j pgj t hgj hfj,
            if_pos (hempty pgj (List.get?_mem hgj) t hfj)]
          rfl
    have hconv : convert_pdf_to_markdown_ocr doc path (some f) ord =
        .error (.conversionError (.ocrNoContent path)) := by
      rw [convert_ocr_some,
        if_neg (fun h0 => hne (List.length_eq_zero.mp h0)),
        collectOcr_eq_foldl doc.pages f ord herrOn (fun _ => none)]
      simp only
      rw [foldl_ocrStep_perm doc.pages f hperm (fun _ => none),
        foldl_ocrStep_range doc.pages f, if_pos hguard]
    unfold convert_to_markdown
    rw [hsrc]
    simp only [hext, hsib, if_true]
    rw [readPdf_of_lookup fs path doc hsrc]
    rw [hconv]
    rfl
  · intro herr hperm hsome
    obtain ⟨pg, hpg, t, hft, hemp⟩ := hsome
    have herrOn : ∀ i ∈ ord, ∀ pgx, doc.pages.get? i = some pgx →
        ∀ e, f pgx.image ≠ .error e :=
      fun i _ pgx hget e => herr pgx (List.get?_mem hget) e
    obtain ⟨i, hgi⟩ := List.get?_of_mem hpg
    have hipt : ocrPageText doc.pages f i = some (pyStrip t) := by
      rw [ocrPageText_ok doc.pages f i pg t hgi hft, if_neg (by simp [hemp])]
    have hilt : i < doc.pages.length := (List.get?_eq_some.mp hgi).1
    have hguard : ((List.range doc.pages.length).all
        (fun j => (ocrPageText doc.pages f j).isNone)) ≠ true := by
      intro hall
      have hj := List.all_eq_true.mp hall i (List.mem_range.mpr hilt)
      rw [hipt] at hj
      simp at hj
    rw [convert_ocr_some,
      if_neg (by intro h0; rw [h0] at hilt; exact Nat.not_lt_zero i hilt),
      collectOcr_eq_foldl doc.pages f ord herrOn (fun _ => none)]
    simp only
    rw [foldl_ocrStep_perm doc.pages f hperm (fun _ => none),
      foldl_ocrStep_range doc.pages f, if_neg hguard,
      show ocrLines (ocrPageText doc.pages f) doc.pages.length
        = textLines (ocrExtracted doc.pages f) 1
        from ocrLines_ocrPageText doc.pages f,
      textLines_eq_spec]
    rfl

/-- Witness for C4, exercising all modes: a PDF whose single page is
whitespace-only fails in text-layer mode with the no-usable-text error and
in OCR mode (OCR returning whitespace) with the no-OCR-content error, the
filesystem unchanged both times; and an OCR run producing text merges to
the spec-shaped Markdown. -/
theorem c4_merge_format_no_extractable_text_witness :
    (convert_to_markdown ⟨[(⟨"c", "w", ".pdf"⟩, .pdf ⟨[⟨"  ", "img"⟩]⟩)]⟩
        ⟨"c", "w", ".pdf"⟩ none none false [] =
      (⟨[(⟨"c", "w", ".pdf"⟩, .pdf ⟨[⟨"  ", "img"⟩]⟩)]⟩,
        .error (.conversionError (.noUsableText ⟨"c", "w", ".pdf"⟩)))) ∧
    (convert_to_markdown ⟨[(⟨"c", "w", ".pdf"⟩, .pdf ⟨[⟨"  ", "img"⟩]⟩)]⟩
        ⟨"c", "w", ".pdf"⟩ none (some (fun _ => .ok " ")) true [0] =
      (⟨[(⟨"c", "w", ".pdf"⟩, .pdf ⟨[⟨"  ", "img"⟩]⟩)]⟩,
        .error (.conversionError (.ocrNoContent ⟨"c", "w", ".pdf"⟩)))) ∧
    (convert_pdf_to_markdown_ocr ⟨[⟨"  ", "img"⟩]⟩ ⟨"c", "w", ".pdf"⟩
        (some (fun b => .ok ("T" ++ b))) [0] =
      .ok (specMergedMarkdown
        (ocrExtracted [⟨"  ", "img"⟩] (fun b => .ok ("T" ++ b))))) :=
  ⟨(c4_merge_format_no_extractable_text
      ⟨[(⟨"c", "w", ".pdf"⟩, .pdf ⟨[⟨"  ", "img"⟩]⟩)]⟩ ⟨"c", "w", ".pdf"⟩
      ⟨[⟨"  ", "img"⟩]⟩ (fun _ => .ok " ") none [] rfl rfl rfl).1
    (by decide),
   (c4_merge_format_no_extractable_text
      ⟨[(⟨"c", "w", ".pdf"⟩, .pdf ⟨[⟨"  ", "img"⟩]⟩)]⟩ ⟨"c", "w", ".pdf"⟩
      ⟨[⟨"  ", "img"⟩]⟩ (fun _ => .ok " ") none [0] rfl rfl rfl).2.2.1
    (fun _ _ e h => Except.noConfusion h)
    (by decide)
    (by decide)
    (fun _ _ t h => by injection h with h1; rw [← h1]; decide),
   (c4_merge_format_no_extractable_text
      ⟨[(⟨"c", "w", ".pdf"⟩, .pdf ⟨[⟨"  ", "img"⟩]⟩)]⟩ ⟨"c", "w", ".pdf"⟩
      ⟨[⟨"  ", "img"⟩]⟩ (fun b => .ok ("T" ++ b)) none [0] rfl rfl rfl).2.2.2
    (fun _ _ e h => Except.noConfusion h)
    (by decide)
    ⟨⟨"  ", "img"⟩, by decide, "T" ++ "img", rfl, by decide⟩⟩

/-- Witness for C5: a `.txt` source under an always-rejecting gate fails
with the quality-check error and an untouched filesystem. -/
theorem c5_quality_gate_atomicity_witness :
    convert_to_markdown ⟨[(⟨"c", "a", ".txt"⟩, .text "abc")]⟩
        ⟨"c", "a", ".txt"⟩ (some (fun _ => false)) none false [] =
      (⟨[(⟨"c", "a", ".txt"⟩, .text "abc")]⟩,
        .error (.conversionError (.textFailedQuality ⟨"c", "a", ".txt"⟩))) :=
  (c5_quality_gate_atomicity ⟨[(⟨"c", "a", ".txt"⟩, .text "abc")]⟩
      ⟨"c", "a", ".txt"⟩ (fun _ => false) none false []).1
    "abc" rfl rfl rfl rfl

/-- `_convert_pdf_to_markdown_ocr` without an OCR function. -/
theorem convert_ocr_none (doc : PdfDoc) (path : FsPath) (ord : List Nat) :
    convert_pdf_to_markdown_ocr doc path none ord =
      .error (.conversionError .ocrNotProvided) := rfl

/-- Every error of the text-layer extractor is the no-usable-text
`ConversionError`. -/
theorem convert_text_error_shape (doc : PdfDoc) (path : FsPath) (e : PyError)
    (h : convert_pdf_to_markdown_text doc path = .error e) :
    e = .conversionError (.noUsableText path) := by
  unfold convert_pdf_to_markdown_text at h
  by_cases hl : (textLines (doc.pages.map (·.textLayer)) 1).isEmpty
  · rw [if_pos hl] at h
    injection h with h1
    exact h1.symm
  · rw [if_neg hl] at h
    exact Except.noConfusion h

/-- Every error of the OCR extractor is a `ConversionError`, except an
exception propagating out of the injected OCR function. -/
theorem convert_ocr_error_shape (doc : PdfDoc) (path : FsPath)
    (ocr : Option OcrFunc) (ord : List Nat) (e : PyError)
    (h : convert_pdf_to_markdown_ocr doc path ocr ord = .error e) :
    e.isConversionError = true ∨
      ∃ f, ocr = some f ∧ ∃ s, e = .ocrException s := by
  cases ocr with
  | none =>
    rw [convert_ocr_none] at h
    injection h with h1
    rw [← h1]
    exact Or.inl rfl
  | some f =>
    rw [convert_ocr_some] at h
    by_cases hn : doc.pages.length = 0
    · rw [if_pos hn] at h
      injection h with h1
      rw [← h1]
      exact Or.inl rfl
    · rw [if_neg hn] at h
      cases hc : collectOcr doc.pages f ord (fun _ => none) with
      | error s =>
        rw [hc] at h
        injection h with h1
        exact Or.inr ⟨f, rfl, s, h1.symm⟩
      | ok results =>
        rw [hc] at h
        simp only at h
        by_cases ha : ((List.range doc.pages.length).all
            (fun i => (results i).isNone)) = true
        · rw [if_pos ha] at h
          injection h with h1
          rw [← h1]
          exact Or.inl rfl
        · rw [if_neg ha] at h
          exact Except.noConfusion h

/-- **C2 counterexample**: calling `convert_to_markdown` on a missing
source raises `FileNotFoundError`, which is not of the `ConversionError`
family — so not every failure is a typed `ConversionError` catchable by
the batch collaborator's per-file handler. -/
theorem c2_counterexample_file_not_found :
    convert_to_markdown ⟨[]⟩ ⟨"c", "m", ".txt"⟩ none none false [] =
      (⟨[]⟩, .error (.fileNotFound ⟨"c", "m", ".txt"⟩)) ∧
    (PyError.fileNotFound ⟨"c", "m", ".txt"⟩).isConversionError = false :=
  ⟨rfl, rfl⟩

/-- **C2 amended**: the failures of `convert_to_markdown` form a typed
taxonomy, but not all of it is `ConversionError`: a missing source raises
`FileNotFoundError` (typed and carrying the path, yet not catchable by
`except ConversionError`), and an exception raised by the injected OCR
function propagates unwrapped (only possible in OCR mode with an OCR
function supplied); every other failure is a `ConversionError`. -/
theorem c2_error_taxonomy (fs : FS) (path : FsPath)
    (qc : Option (String → Bool)) (ocr : Option OcrFunc) (u : Bool)
    (ord : List Nat) (fs2 : FS) (e : PyError)
    (h : convert_to_markdown fs path qc ocr u ord = (fs2, .error e)) :
    (fs.lookup path = none → e = .fileNotFound path) ∧
    (e.isConversionError = false →
      (e = .fileNotFound path ∧ fs.lookup path = none) ∨
      (u = true ∧ ∃ f, ocr = some f ∧ ∃ s, e = .ocrException s)) := by
  constructor
  · intro hmiss
    unfold convert_to_markdown at h
    rw [hmiss] at h
    have := congrArg Prod.snd h
    simp only at this
    injection this with h1
    exact h1.symm
  · intro hnc
    unfold convert_to_markdown at h
    cases hsrc : fs.lookup path with
    | none =>
      rw [hsrc] at h
      have := congrArg Prod.snd h
      simp only at this
      injection this with h1
      exact Or.inl ⟨h1.symm, rfl⟩
    | some d =>
      rw [hsrc] at h
      simp only at h
      by_cases hmd : pyLower path.ext = ".md"
      · rw [if_pos hmd] at h
        simp [Prod.ext_iff] at h
      · rw [if_neg hmd] at h
        by_cases htxt : pyLower path.ext = ".txt"
        · rw [if_pos htxt] at h
          cases hsib : fs.lookup (path.withSuffix ".md") with
          | some d' =>
            rw [hsib] at h
            simp [Prod.ext_iff] at h
          | none =>
            rw [hsib] at h
            cases qc with
            | none =>
              simp [Prod.ext_iff] at h
            | some g =>
              simp only at h
              by_cases hg : g (pyStrip (fs.readText path) ++ "\n") = true
              · rw [if_pos hg] at h
                simp [Prod.ext_iff] at h
              · rw [if_neg hg] at h
                obtain h1 : PyError.conversionError (.textFailedQuality path) = e := by
                  have := congrArg Prod.snd h
                  simp only at this
                  injection this with h1
                rw [← h1] at hnc
                simp [PyError.isConversionError] at hnc
        · rw [if_neg htxt] at h
          cases hsib : fs.lookup (path.withSuffix ".md") with
          | some d' =>
            rw [hsib] at h
            simp [Prod.ext_iff] at h
          | none =>
            rw [hsib] at h
            by_cases hpdf : pyLower path.ext = ".pdf"
            · rw [if_pos hpdf] at h
              cases hconv : (if u = true then
                  convert_pdf_to_markdown_ocr (fs.readPdf path) path ocr ord
                else convert_pdf_to_markdown_text (fs.readPdf path) path) with
              | error ec =>
                rw [hconv] at h
                obtain h1 : ec = e := by
                  have := congrArg Prod.snd h
                  simp only at this
                  injection this with h1
                subst h1
                cases u with
                | false =>
                  simp only [Bool.false_eq_true, if_false] at hconv
                  rw [convert_text_error_shape _ _ _ hconv] at hnc
                  simp [PyError.isConversionError] at hnc
                | true =>
                  simp only [if_true] at hconv
                  rcases convert_ocr_error_shape _ _ _ _ _ hconv with hcc | ⟨f, hf, s, hs⟩
                  · rw [hcc] at hnc
                    cases hnc
                  · exact Or.inr ⟨rfl, f, hf, s, hs⟩
              | ok t =>
                rw [hconv] at h
                cases qc with
                | none =>
                  simp [Prod.ext_iff] at h
                | some g =>
                  simp only at h
                  by_cases hg : g t = true
                  · rw [if_pos hg] at h
                    simp [Prod.ext_iff] at h
                  · rw [if_neg hg] at h
                    obtain h1 : PyError.conversionError (.extractedFailedQuality path) = e := by
                      have := congrArg Prod.snd h
                      simp only at this
                      injection this with h1
                    rw [← h1] at hnc
                    simp [PyError.isConversionError] at hnc
            · rw [if_neg hpdf] at h
              obtain h1 : PyError.conversionError (.unsupportedType (pyLower path.ext)) = e := by
                have := congrArg Prod.snd h
                simp only at this
                injection this with h1
              rw [← h1] at hnc
              simp [PyError.isConversionError] at hnc

/-- Witness for the amended C2: instantiated at a missing source, where
the escaping exception is precisely `FileNotFoundError` on that path. -/
theorem c2_error_taxonomy_witness :
    ((FS.mk []).lookup ⟨"c", "m", ".txt"⟩ = none →
      (PyError.fileNotFound ⟨"c", "m", ".txt"⟩) =
        .fileNotFound ⟨"c", "m", ".txt"⟩) ∧
    ((PyError.fileNotFound ⟨"c", "m", ".txt"⟩).isConversionError = false →
      ((PyError.fileNotFound ⟨"c", "m", ".txt"⟩) =
          .fileNotFound ⟨"c", "m", ".txt"⟩ ∧
        (FS.mk []).lookup ⟨"c", "m", ".txt"⟩ = none) ∨
      (false = true ∧ ∃ f, (none : Option OcrFunc) = some f ∧
        ∃ s, (PyError.fileNotFound ⟨"c", "m", ".txt"⟩) = .ocrException s)) :=
  c2_error_taxonomy ⟨[]⟩ ⟨"c", "m", ".txt"⟩ none none false [] ⟨[]⟩
    (.fileNotFound ⟨"c", "m", ".txt"⟩) rfl

/-- The stale-cheatsheet scenario for C1: the course directory holds
`cheatsheet.pdf` (whose single page's text layer now reads `"NEW"`) and a
previously derived `cheatsheet.md` still holding `"OLD"`. -/
def staleCheatFS : FS :=
  ⟨[(⟨"course", "cheatsheet", ".pdf"⟩, .pdf ⟨[⟨"NEW", "img"⟩]⟩),
    (⟨"course", "cheatsheet", ".md"⟩, .text "OLD")]⟩

/-- **C1** (code bug, forced-fresh cheatsheet reuse): contrary to the
claim — and to `_load_cheatsheet`'s own docstring and inline comment
("Always convert from the PDF source so we get a fresh view") — a second
run of the cheatsheet-loading path does not re-run extraction: (i) with a
derived sibling on disk the loader returns the stale `"OLD"` text and
leaves the filesystem untouched, because it reads `cheatsheet.md`
directly; (ii) `convert_to_markdown` on `cheatsheet.pdf` likewise returns
the pre-existing sibling without extracting; (iii) a fresh extraction of
the stored PDF would instead produce `"Page 1\n\nNEW\n"`, which differs
from the returned content. -/
theorem c1_forced_fresh_not_executed :
    load_cheatsheet staleCheatFS "course" false (fun _ => .ok "") [] =
      .ok ("OLD", staleCheatFS) ∧
    convert_to_markdown staleCheatFS ⟨"course", "cheatsheet", ".pdf"⟩
        none none false [] =
      (staleCheatFS, .ok ⟨"course", "cheatsheet", ".md"⟩) ∧
    convert_pdf_to_markdown_text ⟨[⟨"NEW", "img"⟩]⟩
        ⟨"course", "cheatsheet", ".pdf"⟩ = .ok "Page 1\n\nNEW\n" ∧
    "OLD" ≠ "Page 1\n\nNEW\n" :=
  ⟨rfl, rfl, rfl, by decide⟩

end CheatSheet
